import Mathlib

/-!
Verification development for the GA4 analytics gateway (`google.js`).

The file shallowly embeds the pure content of the source:

* the date-range computation `defaultRange` / `toISO` on an ECMAScript
  `Date` model (millisecond timestamps, a fixed local-time offset,
  proleptic Gregorian civil-calendar conversions);
* the row flattener `rowsToObjects` over JavaScript values;
* the sort/slice post-processing of the `top-pages` and `sources` routes,
  including `Number` coercion of the `limit` query parameter and the
  `Array.prototype.slice` end-index clamping;
* the five route handlers as pure functions from the query, the
  environment and the (already resolved) upstream outcome to a response.

Definitions come first, then the supporting lemmas and the theorems.
-/

set_option maxHeartbeats 1000000

namespace GaSrv

/-! ### Civil calendar arithmetic

`civilFromDays` and `daysFromCivil` convert between a day number
(days since the epoch 1970-01-01) and a proleptic Gregorian civil date,
mirroring the month-table computations that ECMAScript prescribes for
`Date` (`DateFromTime`, `MakeDay`).  Divisions on the intermediate
nonnegative quantities use `/` (Euclidean division agrees with truncating
division there); the era uses floor division.
-/

/-- Civil date `(year, month, day)` of a day number (days since 1970-01-01). -/
def civilFromDays (z0 : ℤ) : ℤ × ℤ × ℤ :=
  let z := z0 + 719468
  let era := Int.fdiv z 146097
  let doe := z - era * 146097
  let yoe := (doe - doe / 1460 + doe / 36524 - doe / 146096) / 365
  let y := yoe + era * 400
  let doy := doe - (365 * yoe + yoe / 4 - yoe / 100)
  let mp := (5 * doy + 2) / 153
  let d := doy - (153 * mp + 2) / 5 + 1
  let m := mp + (if mp < 10 then 3 else -9)
  (y + (if m ≤ 2 then 1 else 0), m, d)

/-- Day number of a civil date; linear in the day-of-month argument,
like ECMAScript's `MakeDay`. -/
def daysFromCivil (y0 m d : ℤ) : ℤ :=
  let y := y0 - (if m ≤ 2 then 1 else 0)
  let era := Int.fdiv y 400
  let yoe := y - era * 400
  let doy := (153 * (m + (if m > 2 then (-3 : ℤ) else 9)) + 2) / 5 + d - 1
  let doe := yoe * 365 + yoe / 4 - yoe / 100 + doy
  era * 146097 + doe - 719468

/-- Milliseconds per day, ECMAScript's `msPerDay`. -/
def msPerDay : ℤ := 86400000

/-- The runtime environment of the server process: the current instant
(`Date.now()`, milliseconds since the epoch, UTC) and the host timezone
offset (milliseconds to add to UTC to obtain local time), modelled as a
constant offset. -/
structure Env where
  nowMs : ℤ
  tzOffsetMs : ℤ
deriving DecidableEq

/-- Local time of the current instant (`LocalTime(t)` in ECMAScript). -/
def localT (e : Env) : ℤ := e.nowMs + e.tzOffsetMs

/-- Day number of the current instant in local time (`Day(LocalTime(t))`). -/
def localDay (e : Env) : ℤ := localT e / msPerDay

/-- Source of `end.getDate()`: `Date.prototype.getDate` at the current instant, the local
day-of-month, i.e. the local day number minus the day number of the
first of the current local month, plus one (`DateFromTime`). -/
def jsGetDate (e : Env) : ℤ :=
  let c := civilFromDays (localDay e)
  localDay e - daysFromCivil c.1 c.2.1 1 + 1

/-- The timestamp produced by `Date.prototype.setDate n` at the current
instant: ECMAScript `MakeDate (MakeDay (year, month, n)) (TimeWithinDay)`
converted back to UTC. -/
def jsSetDate (e : Env) (n : ℤ) : ℤ :=
  let c := civilFromDays (localDay e)
  daysFromCivil c.1 c.2.1 n * msPerDay + localT e % msPerDay - e.tzOffsetMs

/-- Left-pad a month or day number to two digits. -/
def pad2 (n : ℤ) : String := (if n < 10 then "0" else "") ++ toString n

/-- Left-pad a year number to four digits. -/
def pad4 (n : ℤ) : String :=
  (if n < 10 then "000" else if n < 100 then "00" else if n < 1000 then "0" else "") ++
    toString n

/-- Render a day number as `YYYY-MM-DD`. -/
def isoOfDay (day : ℤ) : String :=
  let c := civilFromDays day
  pad4 c.1 ++ "-" ++ pad2 c.2.1 ++ "-" ++ pad2 c.2.2

/-- Source `toISO`: `date.toISOString().slice(0, 10)`.  `toISOString`
renders the UTC calendar date of the instant (not the local date). -/
def toISO (t : ℤ) : String := isoOfDay (t / msPerDay)

/-- A date range as the source builds it: two `YYYY-MM-DD` strings (or
whatever strings the caller supplied). -/
structure DateRange where
  startDate : String
  endDate : String
deriving DecidableEq

/-- The timestamp of the `start` date in source `defaultRange`:
`start.setDate(end.getDate() - (days - 1))` with both `Date`s created at
the current instant. -/
def defaultRangeStartT (e : Env) (days : ℤ) : ℤ :=
  jsSetDate e (jsGetDate e - (days - 1))

/-- The pair of UTC day numbers underlying `defaultRange`'s
`(startDate, endDate)` (what `toISO` renders). -/
def defaultRangeDays (e : Env) (days : ℤ) : ℤ × ℤ :=
  (defaultRangeStartT e days / msPerDay, e.nowMs / msPerDay)

/-- Source `defaultRange(days)`: the trailing window ending at the
current instant, rendered by `toISO`.  Every route invokes it with
`days = 28`. -/
def defaultRange (e : Env) (days : ℤ) : DateRange :=
  { startDate := toISO (defaultRangeStartT e days), endDate := toISO e.nowMs }

/-! ### JavaScript values

`JsNum` models a JavaScript number as either `NaN` or a rational (the
metric strings GA4 returns are decimal, so no floating-point rounding is
involved at the claims' level).  `JVal` models the values that occur in
flattened rows: `null`, strings, numbers.  A JavaScript object built by
successive `obj[k] = v` assignments is modelled as the list of
assignments in order; `getField` returns the last assignment to a key
(later assignments overwrite earlier ones), `none` meaning `undefined`.
-/

/-- A JavaScript number: `NaN` or a rational value. -/
inductive JsNum where
  | nan : JsNum
  | real : ℚ → JsNum
deriving DecidableEq

/-- A JavaScript value stored in a flattened row. -/
inductive JVal where
  | null : JVal
  | str : String → JVal
  | num : JsNum → JVal
deriving DecidableEq

/-- An object as an ordered list of `obj[k] = v` assignments. -/
abbrev Obj := List (String × JVal)

/-- Property lookup: the value of the last assignment to `n`
(`none` = `undefined`). -/
def getField : Obj → String → Option JVal
  | [], _ => none
  | (k, v) :: rest, n =>
    match getField rest n with
    | some w => some w
    | none => if k = n then some v else none

/-- ECMAScript `StringToNumber` whitespace. -/
def isWs (c : Char) : Bool := c == ' ' || c == '\t' || c == '\n' || c == '\r'

/-- Strip leading and trailing whitespace. -/
def trimWs (cs : List Char) : List Char :=
  ((cs.dropWhile isWs).reverse.dropWhile isWs).reverse

/-- Numeric value of a digit string. -/
def digitsVal (cs : List Char) : ℕ :=
  cs.foldl (fun a c => 10 * a + (c.toNat - 48)) 0

/-- Parse an unsigned decimal literal (`123`, `123.45`, `.5`, `5.`) to a
rational; `none` when the characters are not such a literal. -/
def parseUnsigned (cs : List Char) : Option ℚ :=
  let ip := cs.takeWhile (fun c => !(c == '.'))
  let rest := cs.dropWhile (fun c => !(c == '.'))
  match rest with
  | [] => if ip.isEmpty || !ip.all Char.isDigit then none else some (digitsVal ip : ℚ)
  | _ :: fp =>
    if fp.any (fun c => c == '.') then none
    else if ip.isEmpty && fp.isEmpty then none
    else if !ip.all Char.isDigit || !fp.all Char.isDigit then none
    else some ((digitsVal ip : ℚ) + (digitsVal fp : ℚ) / (10 : ℚ) ^ fp.length)

/-- ECMAScript `ToNumber` on a string, restricted to the fragment the
gateway meets (optional sign, decimal digits, optional fraction; a
trimmed empty string is `0`); anything else is `NaN`. -/
def strToNumber (s : String) : JsNum :=
  match trimWs s.toList with
  | [] => .real 0
  | '-' :: rest =>
    match parseUnsigned rest with
    | some q => .real (-q)
    | none => .nan
  | '+' :: rest =>
    match parseUnsigned rest with
    | some q => .real q
    | none => .nan
  | cs =>
    match parseUnsigned cs with
    | some q => .real q
    | none => .nan

/-- ECMAScript `ToNumber` on a possibly-undefined `JVal`
(`undefined → NaN`, `null → 0`). -/
def toNumber : Option JVal → JsNum
  | none => .nan
  | some .null => .real 0
  | some (.str s) => strToNumber s
  | some (.num n) => n

/-- JavaScript subtraction (`NaN` propagates). -/
def jsSub : JsNum → JsNum → JsNum
  | .real a, .real b => .real (a - b)
  | _, _ => .nan

/-! ### The row flattener `rowsToObjects` -/

/-- A dimension or metric header (`{name}`). -/
structure Header where
  name : String
deriving DecidableEq

/-- An upstream report row.  Both value arrays may be absent, and the
`value` of an entry may itself be absent — the source guards with
`row.dimensionValues?.[i]?.value ?? null` and
`row.metricValues?.[i]?.value ?? 0`. -/
structure GRow where
  dimensionValues : Option (List (Option String))
  metricValues : Option (List (Option String))
deriving DecidableEq

/-- The guarded access `row.dimensionValues?.[i]?.value` as an optional string. -/
def dimAt (row : GRow) (i : ℕ) : Option String :=
  row.dimensionValues.bind fun vs => (vs[i]?).bind id

/-- The guarded access `row.metricValues?.[i]?.value` as an optional string. -/
def metAt (row : GRow) (i : ℕ) : Option String :=
  row.metricValues.bind fun vs => (vs[i]?).bind id

/-- The dimension field value: the row's dimension value at `i`, or
`null` when absent. -/
def dimJVal (row : GRow) (i : ℕ) : JVal :=
  match dimAt row i with
  | some s => .str s
  | none => .null

/-- The metric field value: `Number(row.metricValues?.[i]?.value ?? 0)`. -/
def metJNum (row : GRow) (i : ℕ) : JsNum :=
  match metAt row i with
  | some s => strToNumber s
  | none => .real 0

/-- The assignments of `dimensionHeaders.forEach((h, i) => obj[h.name] = ...)`,
starting at index `i`. -/
def dimAssigns (row : GRow) : List Header → ℕ → Obj
  | [], _ => []
  | h :: t, i => (h.name, dimJVal row i) :: dimAssigns row t (i + 1)

/-- The assignments of `metricHeaders.forEach((h, i) => obj[h.name] = ...)`,
starting at index `i`. -/
def metAssigns (row : GRow) : List Header → ℕ → Obj
  | [], _ => []
  | h :: t, i => (h.name, .num (metJNum row i)) :: metAssigns row t (i + 1)

/-- The body of the `rows.map` callback: one flattened record, dimension
assignments first, then metric assignments. -/
def objOfRow (dimensionHeaders metricHeaders : List Header) (row : GRow) : Obj :=
  dimAssigns row dimensionHeaders 0 ++ metAssigns row metricHeaders 0

/-- Source `rowsToObjects`. -/
def rowsToObjects (rows : List GRow) (dimensionHeaders metricHeaders : List Header) :
    List Obj :=
  rows.map (objOfRow dimensionHeaders metricHeaders)

/-! ### Sorting and truncation (`top-pages`, `sources`)

The source sorts with the comparator `(a, b) => b[key] - a[key]` and then
truncates with `slice(0, Number(limit))`.  `SortCompare` treats a `NaN`
comparator result as `0`; with a consistent comparator ECMAScript
guarantees a stable sort, which any stable sort (here insertion sort)
realises.  `slice` converts its end argument with `ToIntegerOrInfinity`
(`NaN → 0`, truncation toward zero) and clamps: a negative index counts
from the end of the array.
-/

/-- The numeric value the comparator reads at `key` (`a[key]` coerced). -/
def fieldNum (key : String) (o : Obj) : JsNum := toNumber (getField o key)

/-- The comparator value `b[key] - a[key]` after `SortCompare`'s
`NaN → +0` step. -/
def cmpVal (key : String) (a b : Obj) : ℚ :=
  match jsSub (fieldNum key b) (fieldNum key a) with
  | .nan => 0
  | .real q => q

/-- Row `a` may be placed no later than row `b` under the comparator. -/
def sortLe (key : String) (a b : Obj) : Prop := cmpVal key a b ≤ 0

instance (key : String) : DecidableRel (sortLe key) :=
  fun a b => inferInstanceAs (Decidable (cmpVal key a b ≤ 0))

/-- The call `rows.sort((a, b) => b[key] - a[key])` as a stable sort. -/
def sortRowsBy (key : String) (rows : List Obj) : List Obj :=
  List.insertionSort (sortLe key) rows

/-- Truncation toward zero, as in `ToIntegerOrInfinity`. -/
def truncRat (q : ℚ) : ℤ := if q < 0 then ⌈q⌉ else ⌊q⌋

/-- The number of elements `slice(0, n)` keeps from a list of length
`len`. -/
def sliceBound (len : ℕ) : JsNum → ℕ
  | .nan => 0
  | .real q =>
    let t := truncRat q
    if t < 0 then ((len : ℤ) + t).toNat else (min t (len : ℤ)).toNat

/-- The call `l.slice(0, n)`. -/
def jsSliceTo (l : List Obj) (n : JsNum) : List Obj :=
  l.take (sliceBound l.length n)

/-- The `top-pages` post-processing:
`rows.sort((a, b) => b.screenPageViews - a.screenPageViews).slice(0, Number(limit))`. -/
def topPagesRows (rows : List Obj) (limit : JsNum) : List Obj :=
  jsSliceTo (sortRowsBy "screenPageViews" rows) limit

/-- The `sources` post-processing:
`rows.sort((a, b) => b.sessions - a.sessions).slice(0, Number(limit))`. -/
def sourcesRows (rows : List Obj) (limit : JsNum) : List Obj :=
  jsSliceTo (sortRowsBy "sessions" rows) limit

/-- Descending order on the coerced field values; only actual numbers
compare (`NaN` compares with nothing). -/
def jsGe : JsNum → JsNum → Prop
  | .real x, .real y => y ≤ x
  | _, _ => False

/-! ### Route handlers -/

/-- The query parameters a route reads.  `none` is an absent parameter. -/
structure Query where
  start : Option String
  «end» : Option String
  limit : Option String
  metric : Option String
deriving DecidableEq

/-- JavaScript truthiness of an optional string parameter: absent and
`""` are falsy, every other string is truthy. -/
def jsTruthy : Option String → Bool
  | none => false
  | some s => !(s == "")

/-- The range construction every route repeats:
`start && end ? {startDate: start, endDate: end} : defaultRange(28)`. -/
def rangeOf (e : Env) (q : Query) : DateRange :=
  if jsTruthy q.start && jsTruthy q.«end» then
    { startDate := q.start.getD "", endDate := q.«end».getD "" }
  else defaultRange e 28

/-- The coercion `Number(limit)` with the destructuring default
`const { limit = 10 } = req.query` (the default applies only when the
parameter is absent). -/
def limitNum (q : Query) : JsNum :=
  match q.limit with
  | none => .real 10
  | some s => strToNumber s

/-- The `meta` object `runReport` builds. -/
structure Meta where
  rowCount : ℤ
  samplesReadCount : ℤ
  samplingMetadatas : List String
deriving DecidableEq

/-- The raw upstream report.  Every field may be absent; the source
guards with `?? 0`, `?? []` and the default parameters of
`rowsToObjects`.  The two metadata fields stand for
`res.metadata.samplesReadCount` and `res.metadata.samplingMetadatas`. -/
structure RawReport where
  rows : Option (List GRow)
  dimensionHeaders : Option (List Header)
  metricHeaders : Option (List Header)
  rowCount : Option ℤ
  samplesReadCount : Option ℤ
  samplingMetadatas : Option (List String)
deriving DecidableEq

/-- What `runReport` returns to a route. -/
structure ReportResult where
  meta : Meta
  rows : List Obj
deriving DecidableEq

/-- Source `runReport`, applied to an already-received upstream result. -/
def runReport (raw : RawReport) : ReportResult :=
  { meta :=
      { rowCount := raw.rowCount.getD 0
        samplesReadCount := raw.samplesReadCount.getD 0
        samplingMetadatas := raw.samplingMetadatas.getD [] }
    rows :=
      rowsToObjects (raw.rows.getD []) (raw.dimensionHeaders.getD [])
        (raw.metricHeaders.getD []) }

/-- The error body `{error, details}` of the catch branches. -/
structure ErrorBody where
  error : String
  details : String
deriving DecidableEq

/-- A route outcome: a 200 JSON body, or a failure status with an error
body. -/
inductive HandlerResult (α : Type) where
  | success : α → HandlerResult α
  | failure : ℕ → ErrorBody → HandlerResult α
deriving DecidableEq

/-- The range a successful response carries, if the result is a success. -/
def resRange {α : Type} (f : α → DateRange) : HandlerResult α → Option DateRange
  | .success b => some (f b)
  | .failure _ _ => none

/-- The read `row.f ?? 0`: the nullish-coalescing default the overview KPIs use
(`undefined` and `null` both fall back to the number `0`). -/
def nullishZero (v : Option JVal) : JVal :=
  match v with
  | none => .num (.real 0)
  | some .null => .num (.real 0)
  | some w => w

/-- The eight KPI field names of the overview route, in response order. -/
def kpiNames : List String :=
  ["totalUsers", "activeUsers", "newUsers", "sessions", "screenPageViews",
   "engagementRate", "averageSessionDuration", "bounceRate"]

/-- The `kpis` object of the overview response, built from
`row = data.rows[0] || {}`. -/
def overviewKpis (row : Obj) : Obj :=
  [("totalUsers", nullishZero (getField row "totalUsers")),
   ("activeUsers", nullishZero (getField row "activeUsers")),
   ("newUsers", nullishZero (getField row "newUsers")),
   ("sessions", nullishZero (getField row "sessions")),
   ("screenPageViews", nullishZero (getField row "screenPageViews")),
   ("engagementRate", nullishZero (getField row "engagementRate")),
   ("averageSessionDuration", nullishZero (getField row "averageSessionDuration")),
   ("bounceRate", nullishZero (getField row "bounceRate"))]

/-- The overview response body. -/
structure OverviewBody where
  range : DateRange
  kpis : Obj
  meta : Meta
deriving DecidableEq

/-- The timeseries response body. -/
structure TimeseriesBody where
  range : DateRange
  metric : String
  rows : List Obj
deriving DecidableEq

/-- The `{range, rows}` response body of `top-pages`, `sources` and
`devices`. -/
structure RowsBody where
  range : DateRange
  rows : List Obj
deriving DecidableEq

/-- The `/api/ga/overview` handler, given the resolved upstream outcome. -/
def overviewHandler (e : Env) (q : Query) (u : Except String RawReport) :
    HandlerResult OverviewBody :=
  let range := rangeOf e q
  match u with
  | .error msg => .failure 500 { error := "overview_failed", details := msg }
  | .ok raw =>
    let data := runReport raw
    let row := (data.rows[0]?).getD []
    .success { range := range, kpis := overviewKpis row, meta := data.meta }

/-- The `/api/ga/timeseries` handler. -/
def timeseriesHandler (e : Env) (q : Query) (u : Except String RawReport) :
    HandlerResult TimeseriesBody :=
  let range := rangeOf e q
  let metric := q.metric.getD "activeUsers"
  match u with
  | .error msg => .failure 500 { error := "timeseries_failed", details := msg }
  | .ok raw => .success { range := range, metric := metric, rows := (runReport raw).rows }

/-- The `/api/ga/top-pages` handler. -/
def topPagesHandler (e : Env) (q : Query) (u : Except String RawReport) :
    HandlerResult RowsBody :=
  let range := rangeOf e q
  match u with
  | .error msg => .failure 500 { error := "top_pages_failed", details := msg }
  | .ok raw =>
    .success { range := range, rows := topPagesRows (runReport raw).rows (limitNum q) }

/-- The `/api/ga/sources` handler. -/
def sourcesHandler (e : Env) (q : Query) (u : Except String RawReport) :
    HandlerResult RowsBody :=
  let range := rangeOf e q
  match u with
  | .error msg => .failure 500 { error := "sources_failed", details := msg }
  | .ok raw =>
    .success { range := range, rows := sourcesRows (runReport raw).rows (limitNum q) }

/-- The `/api/ga/devices` handler: the flattened rows, untouched. -/
def devicesHandler (e : Env) (q : Query) (u : Except String RawReport) :
    HandlerResult RowsBody :=
  let range := rangeOf e q
  match u with
  | .error msg => .failure 500 { error := "devices_failed", details := msg }
  | .ok raw => .success { range := range, rows := (runReport raw).rows }

/-! ### Calendar lemmas -/

/-- The map `daysFromCivil` is linear in the day-of-month, as `MakeDay` is: a
day-of-month out of range simply rolls over. -/
theorem daysFromCivil_day (y m d : ℤ) :
    daysFromCivil y m d = daysFromCivil y m 1 + (d - 1) := by
  simp only [daysFromCivil]
  ring

/-- Calling `setDate (getDate () - k)` moves the instant back by exactly `k`
local calendar days, i.e. `k` whole days under a constant offset. -/
theorem jsSetDate_sub (e : Env) (k : ℤ) :
    jsSetDate e (jsGetDate e - k) = e.nowMs - k * msPerDay := by
  simp only [jsSetDate, jsGetDate]
  rw [daysFromCivil_day]
  have h := Int.ediv_add_emod (localT e) msPerDay
  unfold localDay localT at *
  unfold msPerDay at *
  ring_nf
  omega

/-- The start instant of the default range is exactly `days - 1` whole
days before the current instant. -/
theorem defaultRangeStartT_eq (e : Env) (days : ℤ) :
    defaultRangeStartT e days = e.nowMs - (days - 1) * msPerDay :=
  jsSetDate_sub e (days - 1)

/-- The UTC day numbers of the default range: the end day is the current
UTC day, the start day exactly `days - 1` days earlier. -/
theorem defaultRangeDays_eq (e : Env) (days : ℤ) :
    defaultRangeDays e days = (e.nowMs / msPerDay - (days - 1), e.nowMs / msPerDay) := by
  unfold defaultRangeDays
  rw [defaultRangeStartT_eq]
  have hne : msPerDay ≠ 0 := by decide
  have : e.nowMs - (days - 1) * msPerDay = e.nowMs + (-(days - 1)) * msPerDay := by ring
  rw [this, Int.add_mul_ediv_right _ _ hne]
  simp [sub_eq_add_neg]

/-! ### Lookup lemmas for flattened records -/

/-- Lookup in a concatenation of assignment lists: the later block wins. -/
theorem getField_append (A B : Obj) (n : String) :
    getField (A ++ B) n =
      match getField B n with
      | some w => some w
      | none => getField A n := by
  induction A with
  | nil =>
    simp only [List.nil_append, getField]
    cases getField B n <;> rfl
  | cons p A ih =>
    obtain ⟨k, v⟩ := p
    show (match getField (A ++ B) n with
          | some w => some w
          | none => if k = n then some v else none) = _
    rw [ih]
    cases hB : getField B n with
    | some w => rfl
    | none => rfl

/-- A key assigned nowhere in the list looks up to `undefined`. -/
theorem getField_eq_none (L : Obj) (n : String) (h : ∀ p ∈ L, p.1 ≠ n) :
    getField L n = none := by
  induction L with
  | nil => rfl
  | cons p L ih =>
    obtain ⟨k, v⟩ := p
    have hk : k ≠ n := h (k, v) (List.mem_cons_self _ _)
    have hrest : getField L n = none := ih fun p hp => h p (List.mem_cons_of_mem _ hp)
    simp [getField, hrest, hk]

/-- The keys written by the dimension loop are the dimension header
names, whatever the start index. -/
theorem dimAssigns_keys (row : GRow) (t : List Header) (i : ℕ) :
    (dimAssigns row t i).map Prod.fst = t.map Header.name := by
  induction t generalizing i with
  | nil => rfl
  | cons h t ih => simp [dimAssigns, ih]

/-- The keys written by the metric loop are the metric header names. -/
theorem metAssigns_keys (row : GRow) (t : List Header) (i : ℕ) :
    (metAssigns row t i).map Prod.fst = t.map Header.name := by
  induction t generalizing i with
  | nil => rfl
  | cons h t ih => simp [metAssigns, ih]

/-- With distinct dimension header names, the `i`-th header's name looks
up to the `i`-th dimension value. -/
theorem getField_dimAssigns (row : GRow) (t : List Header)
    (hn : (t.map Header.name).Nodup) (i s : ℕ) (hi : i < t.length) :
    getField (dimAssigns row t s) ((t.get ⟨i, hi⟩).name) = some (dimJVal row (s + i)) := by
  induction t generalizing i s with
  | nil => exact absurd hi (Nat.not_lt_zero i)
  | cons h t ih =>
    simp only [List.map_cons, List.nodup_cons] at hn
    match i with
    | 0 =>
      have hnone : getField (dimAssigns row t (s + 1)) h.name = none := by
        apply getField_eq_none
        intro p hp
        have : p.1 ∈ (dimAssigns row t (s + 1)).map Prod.fst := List.mem_map_of_mem _ hp
        rw [dimAssigns_keys] at this
        intro hpn
        exact hn.1 (hpn ▸ this)
      simp [dimAssigns, getField, hnone]
    | i + 1 =>
      have := ih hn.2 i (s + 1) (Nat.lt_of_succ_lt_succ hi)
      simp only [dimAssigns, getField, List.get_cons_succ, this]
      congr 1
      congr 1
      omega

/-- With distinct metric header names, the `j`-th header's name looks up
to the `j`-th coerced metric value. -/
theorem getField_metAssigns (row : GRow) (t : List Header)
    (hn : (t.map Header.name).Nodup) (i s : ℕ) (hi : i < t.length) :
    getField (metAssigns row t s) ((t.get ⟨i, hi⟩).name) =
      some (.num (metJNum row (s + i))) := by
  induction t generalizing i s with
  | nil => exact absurd hi (Nat.not_lt_zero i)
  | cons h t ih =>
    simp only [List.map_cons, List.nodup_cons] at hn
    match i with
    | 0 =>
      have hnone : getField (metAssigns row t (s + 1)) h.name = none := by
        apply getField_eq_none
        intro p hp
        have : p.1 ∈ (metAssigns row t (s + 1)).map Prod.fst := List.mem_map_of_mem _ hp
        rw [metAssigns_keys] at this
        intro hpn
        exact hn.1 (hpn ▸ this)
      simp [metAssigns, getField, hnone]
    | i + 1 =>
      have := ih hn.2 i (s + 1) (Nat.lt_of_succ_lt_succ hi)
      simp only [metAssigns, getField, List.get_cons_succ, this]
      congr 2
      congr 1
      omega

/-- The dimension part of a record: when the looked-up name is not a
metric header name, the metric block contributes nothing. -/
theorem getField_objOfRow_dim (dims mets : List Header) (row : GRow)
    (hd : (dims.map Header.name).Nodup)
    (i : ℕ) (hi : i < dims.length)
    (hnm : (dims.get ⟨i, hi⟩).name ∉ mets.map Header.name) :
    getField (objOfRow dims mets row) ((dims.get ⟨i, hi⟩).name) =
      some (dimJVal row i) := by
  unfold objOfRow
  rw [getField_append]
  have hmet : getField (metAssigns row mets 0) ((dims.get ⟨i, hi⟩).name) = none := by
    apply getField_eq_none
    intro p hp
    have : p.1 ∈ (metAssigns row mets 0).map Prod.fst := List.mem_map_of_mem _ hp
    rw [metAssigns_keys] at this
    intro hpn
    exact hnm (hpn ▸ this)
  rw [hmet]
  have := getField_dimAssigns row dims hd i 0 hi
  simpa using this

/-- The metric part of a record: a metric header name always looks up to
the coerced metric value, whatever the dimension headers wrote. -/
theorem getField_objOfRow_met (dims mets : List Header) (row : GRow)
    (hm : (mets.map Header.name).Nodup)
    (j : ℕ) (hj : j < mets.length) :
    getField (objOfRow dims mets row) ((mets.get ⟨j, hj⟩).name) =
      some (.num (metJNum row j)) := by
  unfold objOfRow
  rw [getField_append]
  have := getField_metAssigns row mets hm j 0 hj
  simp only [Nat.zero_add] at this
  rw [this]

/-! ### Sorting lemmas

ECMAScript only promises a sorted, stable result when the comparator is
consistent; the comparator `b[key] - a[key]` is consistent exactly on
rows whose `key` field coerces to an actual number.  The lemmas below
therefore establish sortedness of `insertionSort` under a predicate `P`
that cuts out those rows, rather than through the global `IsTotal` and
`IsTrans` instances Mathlib's `sorted_insertionSort` expects. -/

/-- Inserting an element keeps a list sorted, provided the relation is
total and transitive on a predicate all touched elements satisfy. -/
theorem sorted_orderedInsert_of_forall {α : Type} (r : α → α → Prop) [DecidableRel r]
    (P : α → Prop) (total : ∀ a b, P a → P b → r a b ∨ r b a)
    (tr : ∀ a b c, P a → P b → P c → r a b → r b c → r a c) :
    ∀ (a : α) (l : List α), P a → (∀ x ∈ l, P x) → List.Sorted r l →
      List.Sorted r (List.orderedInsert r a l) := by
  intro a l
  induction l with
  | nil => intro _ _ _; simp [List.orderedInsert]
  | cons b t ih =>
    intro ha hl hs
    have hb : P b := hl b (List.mem_cons_self _ _)
    have ht : ∀ x ∈ t, P x := fun x hx => hl x (List.mem_cons_of_mem _ hx)
    by_cases hab : r a b
    · rw [List.orderedInsert, if_pos hab]
      rw [List.sorted_cons]
      constructor
      · intro y hy
        rcases List.mem_cons.mp hy with hyb | hyt
        · exact hyb ▸ hab
        · exact tr a b y ha hb (ht y hyt) hab (List.rel_of_sorted_cons hs y hyt)
      · exact hs
    · rw [List.orderedInsert, if_neg hab]
      rw [List.sorted_cons]
      constructor
      · intro y hy
        rcases (List.mem_orderedInsert r).mp hy with hya | hyt
        · exact hya ▸ ((total a b ha hb).resolve_left hab)
        · exact List.rel_of_sorted_cons hs y hyt
      · exact ih ha ht hs.of_cons

/-- The sort `insertionSort` sorts any list of elements on which the relation is
total and transitive. -/
theorem sorted_insertionSort_of_forall {α : Type} (r : α → α → Prop) [DecidableRel r]
    (P : α → Prop) (total : ∀ a b, P a → P b → r a b ∨ r b a)
    (tr : ∀ a b c, P a → P b → P c → r a b → r b c → r a c) :
    ∀ l : List α, (∀ x ∈ l, P x) → List.Sorted r (List.insertionSort r l) := by
  intro l
  induction l with
  | nil => intro _; simp
  | cons a t ih =>
    intro hl
    have ha : P a := hl a (List.mem_cons_self _ _)
    have ht : ∀ x ∈ t, P x := fun x hx => hl x (List.mem_cons_of_mem _ hx)
    rw [List.insertionSort]
    exact sorted_orderedInsert_of_forall r P total tr a _ ha
      (fun x hx => ht x ((List.mem_insertionSort r).mp hx)) (ih ht)

/-- On rows whose `key` field is an actual number, the comparator order
means descending field values. -/
theorem sortLe_iff_of_real {key : String} {a b : Obj} {x y : ℚ}
    (ha : fieldNum key a = .real x) (hb : fieldNum key b = .real y) :
    sortLe key a b ↔ y ≤ x := by
  unfold sortLe cmpVal
  rw [ha, hb]
  show (y - x ≤ 0) ↔ y ≤ x
  constructor <;> intro h <;> linarith

/-- Rows with numeric `key` fields: the comparator is total there. -/
theorem sortLe_total_real (key : String) :
    ∀ a b : Obj, (∃ x : ℚ, fieldNum key a = .real x) →
      (∃ y : ℚ, fieldNum key b = .real y) → sortLe key a b ∨ sortLe key b a := by
  rintro a b ⟨x, ha⟩ ⟨y, hb⟩
  rcases le_total y x with h | h
  · exact Or.inl ((sortLe_iff_of_real ha hb).mpr h)
  · exact Or.inr ((sortLe_iff_of_real hb ha).mpr h)

/-- Rows with numeric `key` fields: the comparator is transitive there. -/
theorem sortLe_trans_real (key : String) :
    ∀ a b c : Obj, (∃ x : ℚ, fieldNum key a = .real x) →
      (∃ y : ℚ, fieldNum key b = .real y) → (∃ z : ℚ, fieldNum key c = .real z) →
      sortLe key a b → sortLe key b c → sortLe key a c := by
  rintro a b c ⟨x, ha⟩ ⟨y, hb⟩ ⟨z, hc⟩ hab hbc
  have h1 := (sortLe_iff_of_real ha hb).mp hab
  have h2 := (sortLe_iff_of_real hb hc).mp hbc
  exact (sortLe_iff_of_real ha hc).mpr (le_trans h2 h1)

/-- The number of rows `slice(0, n)` keeps never exceeds the length. -/
theorem sliceBound_le (len : ℕ) (n : JsNum) : sliceBound len n ≤ len := by
  cases n with
  | nan => exact Nat.zero_le _
  | real q =>
    simp only [sliceBound]
    split <;> omega

/-- The length of `l.slice(0, n)` is exactly the clamped bound. -/
theorem length_jsSliceTo (l : List Obj) (n : JsNum) :
    (jsSliceTo l n).length = sliceBound l.length n := by
  unfold jsSliceTo
  rw [List.length_take]
  exact Nat.min_eq_left (sliceBound_le _ _)

/-- Sort-then-slice output is descending on the designated field as long
as every input row's field coerces to an actual number. -/
theorem pairwise_ranked (key : String) (rows : List Obj) (n : JsNum)
    (h : ∀ o ∈ rows, ∃ x : ℚ, fieldNum key o = .real x) :
    (jsSliceTo (sortRowsBy key rows) n).Pairwise
      (fun a b => jsGe (fieldNum key a) (fieldNum key b)) := by
  have hsorted : List.Sorted (sortLe key) (sortRowsBy key rows) :=
    sorted_insertionSort_of_forall (sortLe key)
      (fun o => ∃ x : ℚ, fieldNum key o = .real x)
      (sortLe_total_real key) (sortLe_trans_real key) rows h
  have hmem : ∀ o ∈ sortRowsBy key rows, ∃ x : ℚ, fieldNum key o = .real x :=
    fun o ho => h o ((List.mem_insertionSort _).mp ho)
  have himp : ∀ {a b : Obj}, a ∈ sortRowsBy key rows → b ∈ sortRowsBy key rows →
      sortLe key a b → jsGe (fieldNum key a) (fieldNum key b) := by
    intro a b ha hb hab
    obtain ⟨x, hx⟩ := hmem a ha
    obtain ⟨y, hy⟩ := hmem b hb
    have hyx := (sortLe_iff_of_real hx hy).mp hab
    rw [hx, hy]
    exact hyx
  exact List.Pairwise.sublist (List.take_sublist _ _)
    (List.Pairwise.imp_of_mem himp hsorted)

/-! ### The claims -/

/-- C3 counterexample.  With the current instant 1970-01-01T20:00Z and a
host timezone of UTC+10h, the route's `endDate` renders the UTC calendar
date `1970-01-01`, while "today" in local date arithmetic is
`1970-01-02`: `toISO` slices `toISOString`, which renders the UTC date,
so the claimed "end date equal to today ... in local date arithmetic"
fails. -/
theorem defaultRange_end_not_local_today :
    (defaultRange ⟨72000000, 36000000⟩ 28).endDate = "1970-01-01" ∧
    isoOfDay (localDay ⟨72000000, 36000000⟩) = "1970-01-02" ∧
    (defaultRange ⟨72000000, 36000000⟩ 28).endDate ≠
      isoOfDay (localDay ⟨72000000, 36000000⟩) :=
  ⟨by decide, by decide, by decide⟩

/-- C3 (amended): for any `days`, the returned range's end date is the
current UTC calendar date (not the local one) and the window spans
exactly `days - 1` calendar days from start to end, both rendered as
`YYYY-MM-DD`; the routes invoke `defaultRange` with `days = 28`. -/
theorem defaultRange_spec (e : Env) (days : ℤ) :
    (defaultRangeDays e days).2 = e.nowMs / msPerDay ∧
    (defaultRangeDays e days).2 - (defaultRangeDays e days).1 = days - 1 ∧
    defaultRange e days =
      { startDate := isoOfDay (e.nowMs / msPerDay - (days - 1)),
        endDate := isoOfDay (e.nowMs / msPerDay) } ∧
    rangeOf e ⟨none, none, none, none⟩ = defaultRange e 28 := by
  have h := defaultRangeDays_eq e days
  refine ⟨?_, ?_, ?_, rfl⟩
  · rw [h]
  · rw [h]; ring
  · unfold defaultRange toISO
    have h1 : defaultRangeStartT e days / msPerDay = (defaultRangeDays e days).1 := rfl
    rw [h1, h]

/-- C5: on an upstream failure, every route responds with status 500 and
a body carrying its fixed tag and the raw failure message. -/
theorem routes_fail_with_500 (e : Env) (q : Query) (msg : String) :
    overviewHandler e q (.error msg) = .failure 500 ⟨"overview_failed", msg⟩ ∧
    timeseriesHandler e q (.error msg) = .failure 500 ⟨"timeseries_failed", msg⟩ ∧
    topPagesHandler e q (.error msg) = .failure 500 ⟨"top_pages_failed", msg⟩ ∧
    sourcesHandler e q (.error msg) = .failure 500 ⟨"sources_failed", msg⟩ ∧
    devicesHandler e q (.error msg) = .failure 500 ⟨"devices_failed", msg⟩ :=
  ⟨rfl, rfl, rfl, rfl, rfl⟩

/-- C6: with both `start` and `end` supplied (as non-empty strings, the
truthiness the source checks), the strings flow into the range
unchanged, with no format validation; with either absent, the route
falls back to the default 28-day window instead of erroring. -/
theorem range_passthrough_or_default (e : Env) (q : Query) :
    (∀ s t : String, q.start = some s → s ≠ "" → q.«end» = some t → t ≠ "" →
      rangeOf e q = ⟨s, t⟩) ∧
    ((q.start = none ∨ q.«end» = none) → rangeOf e q = defaultRange e 28) := by
  constructor
  · intro s t hs hsne ht htne
    unfold rangeOf
    rw [hs, ht]
    simp [jsTruthy, hsne, htne]
  · intro h
    unfold rangeOf
    rcases h with h | h <;> rw [h] <;> simp [jsTruthy]

/-- C6 witness: malformed date strings pass through untouched, and a
missing `start` yields the default window. -/
theorem range_passthrough_or_default_witness :
    rangeOf ⟨0, 0⟩ ⟨some "2024-02-30", some "not-a-date", none, none⟩ =
      ⟨"2024-02-30", "not-a-date"⟩ ∧
    rangeOf ⟨0, 0⟩ ⟨none, some "2024-01-01", none, none⟩ = defaultRange ⟨0, 0⟩ 28 :=
  ⟨(range_passthrough_or_default ⟨0, 0⟩ _).1 _ _ rfl (by decide) rfl (by decide),
   (range_passthrough_or_default ⟨0, 0⟩ _).2 (Or.inl rfl)⟩

/-- C8: the devices route returns every flattened upstream row, in
upstream order, with no sorting and no truncation; flattening preserves
the row count. -/
theorem devices_returns_all_rows (e : Env) (q : Query) (raw : RawReport) :
    devicesHandler e q (.ok raw) =
      .success { range := rangeOf e q,
                 rows := rowsToObjects (raw.rows.getD []) (raw.dimensionHeaders.getD [])
                   (raw.metricHeaders.getD []) } ∧
    (rowsToObjects (raw.rows.getD []) (raw.dimensionHeaders.getD [])
      (raw.metricHeaders.getD [])).length = (raw.rows.getD []).length :=
  ⟨rfl, List.length_map _ _⟩

/-- C10: an empty-string `start` or `end` is falsy, so it is treated
exactly like an absent parameter: every route resolves the default
28-day window in that case. -/
theorem empty_param_means_default (e : Env) (q : Query)
    (h : q.start = some "" ∨ q.«end» = some "") :
    rangeOf e q = defaultRange e 28 ∧
    (∀ raw, resRange OverviewBody.range (overviewHandler e q (.ok raw)) =
      some (defaultRange e 28)) ∧
    (∀ raw, resRange TimeseriesBody.range (timeseriesHandler e q (.ok raw)) =
      some (defaultRange e 28)) ∧
    (∀ raw, resRange RowsBody.range (topPagesHandler e q (.ok raw)) =
      some (defaultRange e 28)) ∧
    (∀ raw, resRange RowsBody.range (sourcesHandler e q (.ok raw)) =
      some (defaultRange e 28)) ∧
    (∀ raw, resRange RowsBody.range (devicesHandler e q (.ok raw)) =
      some (defaultRange e 28)) := by
  have hr : rangeOf e q = defaultRange e 28 := by
    unfold rangeOf
    rcases h with h | h <;> rw [h] <;> simp [jsTruthy]
  refine ⟨hr, ?_, ?_, ?_, ?_, ?_⟩ <;> intro raw <;>
    simp [overviewHandler, timeseriesHandler, topPagesHandler, sourcesHandler,
      devicesHandler, resRange, hr]

/-- C10 witness: `start = ""` with a well-formed `end` still resolves
the default window. -/
theorem empty_param_means_default_witness :
    rangeOf ⟨0, 0⟩ ⟨some "", some "2024-01-01", none, none⟩ = defaultRange ⟨0, 0⟩ 28 :=
  (empty_param_means_default ⟨0, 0⟩ _ (Or.inl rfl)).1

/-- C1: `rowsToObjects` flattens each row into a record that maps the
`i`-th dimension header name to the row's `i`-th dimension value (the
string itself, or `null` when absent) and the `j`-th metric header name
to the row's `j`-th metric value coerced to a number (`0` when absent);
an empty row list flattens to the empty list.  Header names are assumed
pairwise distinct and non-overlapping across the two header lists, as
they are in an upstream report. -/
theorem rowsToObjects_spec (dims mets : List Header)
    (hd : (dims.map Header.name).Nodup)
    (hm : (mets.map Header.name).Nodup)
    (hdisj : ∀ n ∈ dims.map Header.name, n ∉ mets.map Header.name) :
    rowsToObjects [] dims mets = [] ∧
    (∀ rows : List GRow, rowsToObjects rows dims mets = rows.map (objOfRow dims mets)) ∧
    (∀ (row : GRow) (i : ℕ) (hi : i < dims.length),
      getField (objOfRow dims mets row) ((dims.get ⟨i, hi⟩).name) = some (dimJVal row i) ∧
      (dimAt row i = none → dimJVal row i = .null) ∧
      (∀ s, dimAt row i = some s → dimJVal row i = .str s)) ∧
    (∀ (row : GRow) (j : ℕ) (hj : j < mets.length),
      getField (objOfRow dims mets row) ((mets.get ⟨j, hj⟩).name) =
        some (.num (metJNum row j)) ∧
      (metAt row j = none → metJNum row j = .real 0) ∧
      (∀ s, metAt row j = some s → metJNum row j = strToNumber s)) := by
  refine ⟨rfl, fun rows => rfl, ?_, ?_⟩
  · intro row i hi
    have hmem : (dims.get ⟨i, hi⟩).name ∈ dims.map Header.name :=
      List.mem_map_of_mem _ (List.get_mem _ _ _)
    refine ⟨getField_objOfRow_dim dims mets row hd i hi (hdisj _ hmem), ?_, ?_⟩
    · intro h
      simp [dimJVal, h]
    · intro s h
      simp [dimJVal, h]
  · intro row j hj
    refine ⟨getField_objOfRow_met dims mets row hm j hj, ?_, ?_⟩
    · intro h
      simp [metJNum, h]
    · intro s h
      simp [metJNum, h]

/-- C1 witness on a concrete report: a present dimension value appears
under its header name, a missing metric value defaults to `0`. -/
theorem rowsToObjects_spec_witness :
    getField (objOfRow [⟨"d0"⟩] [⟨"m0"⟩] ⟨some [some "x"], some [some "5"]⟩) "d0" =
      some (.str "x") ∧
    getField (objOfRow [⟨"d0"⟩] [⟨"m0"⟩] ⟨some [some "x"], none⟩) "m0" =
      some (.num (.real 0)) := by
  have h := rowsToObjects_spec [⟨"d0"⟩] [⟨"m0"⟩] (by decide) (by decide) (by decide)
  exact ⟨(h.2.2.1 ⟨some [some "x"], some [some "5"]⟩ 0 (by decide)).1,
         (h.2.2.2 ⟨some [some "x"], none⟩ 0 (by decide)).1⟩

/-- C7: in a flattened record, the `i`-th dimension header's name is the
key under which the row's `i`-th dimension value appears, for every row
whatever its values (header names distinct and not shadowed by a metric
header). -/
theorem header_order_key_correspondence (dims mets : List Header) (row : GRow)
    (hd : (dims.map Header.name).Nodup)
    (hdisj : ∀ n ∈ dims.map Header.name, n ∉ mets.map Header.name)
    (i : ℕ) (hi : i < dims.length) :
    getField (objOfRow dims mets row) ((dims.get ⟨i, hi⟩).name) = some (dimJVal row i) :=
  getField_objOfRow_dim dims mets row hd i hi
    (hdisj _ (List.mem_map_of_mem _ (List.get_mem _ _ _)))

/-- C7 witness: the second dimension header's name carries the second
value of a two-dimension row. -/
theorem header_order_key_correspondence_witness :
    getField (objOfRow [⟨"a"⟩, ⟨"b"⟩] [⟨"m"⟩] ⟨some [some "v0", some "v1"], none⟩) "b" =
      some (.str "v1") := by
  have h := header_order_key_correspondence [⟨"a"⟩, ⟨"b"⟩] [⟨"m"⟩]
    ⟨some [some "v0", some "v1"], none⟩ (by decide) (by decide) 1 (by decide)
  exact h

/-- C9: metric assignments run after dimension assignments over the same
record, so a name occurring in both header lists ends up bound to the
coerced numeric metric value, never to the dimension value. -/
theorem metric_overwrites_dimension (dims mets : List Header) (row : GRow)
    (hm : (mets.map Header.name).Nodup) (j : ℕ) (hj : j < mets.length)
    (_hboth : (mets.get ⟨j, hj⟩).name ∈ dims.map Header.name) :
    getField (objOfRow dims mets row) ((mets.get ⟨j, hj⟩).name) =
      some (.num (metJNum row j)) :=
  getField_objOfRow_met dims mets row hm j hj

/-- C9 witness: with `x` both a dimension and a metric header, the
record holds the number `7`, not the string `"dim"`. -/
theorem metric_overwrites_dimension_witness :
    getField (objOfRow [⟨"x"⟩] [⟨"x"⟩] ⟨some [some "dim"], some [some "7"]⟩) "x" =
      some (.num (.real 7)) := by
  have h := metric_overwrites_dimension [⟨"x"⟩] [⟨"x"⟩]
    ⟨some [some "dim"], some [some "7"]⟩ (by decide) 0 (by decide) (by decide)
  exact h

/-- C4: with zero upstream rows the overview route still succeeds and its
`kpis` object is `overviewKpis []`, in which all eight KPI fields are the
number `0`; more generally, any KPI field missing from the single result
row defaults to `0`. -/
theorem overview_kpis_spec :
    (∀ (e : Env) (q : Query) (raw : RawReport), raw.rows = some [] →
      overviewHandler e q (.ok raw) =
        .success { range := rangeOf e q, kpis := overviewKpis [],
                   meta := (runReport raw).meta }) ∧
    overviewKpis [] =
      [("totalUsers", .num (.real 0)), ("activeUsers", .num (.real 0)),
       ("newUsers", .num (.real 0)), ("sessions", .num (.real 0)),
       ("screenPageViews", .num (.real 0)), ("engagementRate", .num (.real 0)),
       ("averageSessionDuration", .num (.real 0)), ("bounceRate", .num (.real 0))] ∧
    (∀ (row : Obj) (name : String), name ∈ kpiNames → getField row name = none →
      getField (overviewKpis row) name = some (.num (.real 0))) := by
  refine ⟨?_, rfl, ?_⟩
  · intro e q raw h
    have hrows : (runReport raw).rows = [] := by
      unfold runReport rowsToObjects
      rw [h]
      rfl
    simp [overviewHandler, hrows]
  · intro row name hmem h
    simp only [kpiNames] at hmem
    fin_cases hmem <;> simp [overviewKpis, getField, h, nullishZero]

/-- C4 witness: a raw result with zero rows produces the all-zero KPI
response, and a field absent from the first row reads back as `0`. -/
theorem overview_kpis_spec_witness :
    overviewHandler ⟨0, 0⟩ ⟨none, none, none, none⟩
        (.ok ⟨some [], none, none, none, none, none⟩) =
      .success { range := rangeOf ⟨0, 0⟩ ⟨none, none, none, none⟩,
                 kpis := overviewKpis [],
                 meta := (runReport ⟨some [], none, none, none, none, none⟩).meta } ∧
    getField (overviewKpis [("sessions", .num (.real 3))]) "totalUsers" =
      some (.num (.real 0)) :=
  ⟨overview_kpis_spec.1 ⟨0, 0⟩ ⟨none, none, none, none⟩ _ rfl,
   overview_kpis_spec.2.2 [("sessions", .num (.real 3))] "totalUsers" (by decide) (by decide)⟩

/-- C2 counterexample.  The claim equates the output length with
`min(k, Number(L))` for every numeric `L`, but `slice(0, -1)` on one row
keeps zero rows while `min(1, -1) = -1`: a negative numeric limit
refutes the claimed equation (and is what the code produces for, say,
`limit=-1`). -/
theorem ranked_views_claim_ce :
    limitNum ⟨none, none, some "-1", none⟩ = JsNum.real (-1) ∧
    (topPagesRows [[("screenPageViews", JVal.num (.real 5))]] (JsNum.real (-1))).length
      = 0 ∧
    ¬ (((topPagesRows [[("screenPageViews", JVal.num (.real 5))]]
          (JsNum.real (-1))).length : ℚ) = min (1 : ℚ) (-1)) :=
  ⟨by decide, by decide, by decide⟩

/-- C2 (amended): for the top-pages and sources views over `k` flattened
rows and limit `L`: a non-numeric `L` (`Number(L) = NaN`) yields zero
rows; a numeric `L` yields `min(k, trunc(L))` rows when `trunc(L) ≥ 0`
and `max(k + trunc(L), 0)` rows when `trunc(L) < 0` (the `slice`
clamping; for a nonnegative integer limit this is `min(k, L)`); and the
output is sorted descending by the designated metric
(`screenPageViews` / `sessions`) whenever every row's designated metric
value is an actual number. -/
theorem ranked_views_spec (rows : List Obj) (n : JsNum) :
    (n = .nan → topPagesRows rows n = [] ∧ sourcesRows rows n = []) ∧
    (∀ q : ℚ, n = .real q →
      ((topPagesRows rows n).length : ℤ) =
        (if truncRat q < 0 then max ((rows.length : ℤ) + truncRat q) 0
         else min (truncRat q) (rows.length : ℤ)) ∧
      ((sourcesRows rows n).length : ℤ) =
        (if truncRat q < 0 then max ((rows.length : ℤ) + truncRat q) 0
         else min (truncRat q) (rows.length : ℤ))) ∧
    ((∀ o ∈ rows, ∃ x : ℚ, fieldNum "screenPageViews" o = .real x) →
      (topPagesRows rows n).Pairwise
        (fun a b => jsGe (fieldNum "screenPageViews" a) (fieldNum "screenPageViews" b))) ∧
    ((∀ o ∈ rows, ∃ x : ℚ, fieldNum "sessions" o = .real x) →
      (sourcesRows rows n).Pairwise
        (fun a b => jsGe (fieldNum "sessions" a) (fieldNum "sessions" b))) := by
  have hlen : ∀ (key : String) (q : ℚ), n = .real q →
      ((jsSliceTo (sortRowsBy key rows) n).length : ℤ) =
        (if truncRat q < 0 then max ((rows.length : ℤ) + truncRat q) 0
         else min (truncRat q) (rows.length : ℤ)) := by
    intro key q hq
    subst hq
    rw [length_jsSliceTo]
    unfold sortRowsBy
    rw [List.length_insertionSort]
    simp only [sliceBound]
    split <;> omega
  refine ⟨?_, ?_, ?_, ?_⟩
  · intro hq
    subst hq
    exact ⟨rfl, rfl⟩
  · intro q hq
    exact ⟨hlen "screenPageViews" q hq, hlen "sessions" q hq⟩
  · exact pairwise_ranked "screenPageViews" rows n
  · exact pairwise_ranked "sessions" rows n

/-- C2 witness: two rows, limit 10 — both rows survive, in descending
`screenPageViews` order; an empty list with a `NaN` limit stays empty. -/
theorem ranked_views_spec_witness :
    ((topPagesRows [[("screenPageViews", JVal.num (.real 1))],
        [("screenPageViews", JVal.num (.real 4))]] (JsNum.real 10)).length : ℤ) =
      (if truncRat 10 < 0
       then max (((([[("screenPageViews", JVal.num (.real 1))],
          [("screenPageViews", JVal.num (.real 4))]] : List Obj).length : ℤ)) + truncRat 10) 0
       else min (truncRat 10)
         ((([[("screenPageViews", JVal.num (.real 1))],
            [("screenPageViews", JVal.num (.real 4))]] : List Obj).length : ℤ))) ∧
    (topPagesRows [[("screenPageViews", JVal.num (.real 1))],
        [("screenPageViews", JVal.num (.real 4))]] (JsNum.real 10)).Pairwise
      (fun a b => jsGe (fieldNum "screenPageViews" a) (fieldNum "screenPageViews" b)) ∧
    topPagesRows [] JsNum.nan = [] := by
  refine ⟨((ranked_views_spec _ (JsNum.real 10)).2.1 10 rfl).1, ?_, ?_⟩
  · refine (ranked_views_spec _ (JsNum.real 10)).2.2.1 ?_
    intro o ho
    fin_cases ho
    · exact ⟨1, rfl⟩
    · exact ⟨4, rfl⟩
  · exact ((ranked_views_spec [] JsNum.nan).1 rfl).1

end GaSrv
